import Mathlib

/-!
# Formal model of the gostream pipeline library

A shallow embedding of the Go stream-pipeline library `gostream`.  Every
stage of a pipeline communicates through a one-request/one-response pull
protocol over channels; a consumer that issues requests one at a time
serialises the whole pipeline, so the sequence of items a stage emits is a
well-defined list.  We model each stage by that linearised emission list of
`orderedData` items (a `uint64` sequence tag plus a value), and each
operator by the list transformation its worker loop performs.

Where parallel terminal operations genuinely race (several workers each
collect a share of the items and the partial results are concatenated in
channel-arrival order), the nondeterminism is exposed as an explicitly
quantified arrival list, constrained to be a permutation of the upstream
items.

`uint64` counters are modelled as `Nat` with `% 2^64` applied at every
increment that the Go code performs on a `uint64` variable.
-/

namespace GoStream

/-- `2^64`, the modulus of Go's `uint64` arithmetic. -/
def U64MOD : Nat := 2 ^ 64

/-- `orderedData[T]` (part_002 lines 16-19): a value tagged with its
encounter-order sequence number (`order uint64`). -/
structure OrderedData (T : Type) where
  order : Nat
  data : T
deriving DecidableEq, Repr

/-! ## Source producers (stream_func.go) -/

/-- Emission sequence of `Of(data...)` (stream_func.go lines 135-170): the
producer goroutine serves the `i`-th data request with
`orderedData{order: uint64(i), data: data[i]}` and closes after `len(data)`
items.  Go guarantees `i < len(data) ≤ 2^63-1`, so `uint64(i) = i` exactly
and no modulus is needed here. -/
def ofEmit {T : Type} (data : List T) : List (OrderedData T) :=
  data.enum.map (fun p => ⟨p.1, p.2⟩)

/-- The value emitted by `Iterate(seed, f)` at position `n`
(stream_func.go lines 367-399): the goroutine emits `seed` on the first
request (`useSeed` branch) and `nextValue = f(nextValue)` on every
subsequent one. -/
def iterateData {T : Type} (seed : T) (f : T → T) : Nat → T
  | 0 => seed
  | n + 1 => f (iterateData seed f n)

/-- The `n`-th item emitted by `Iterate(seed, f)`: the producer's local
`order uint64` starts at `0` and is incremented (`order++`, wrapping mod
`2^64`) after each emission. -/
def iterateEmit {T : Type} (seed : T) (f : T → T) (n : Nat) : OrderedData T :=
  ⟨n % U64MOD, iterateData seed f n⟩

/-- The `n`-th item emitted by `Generate(s)` (stream_func.go lines
446-466); the supplier is modelled by the sequence of values `s 0, s 1, …`
its successive calls return, and the producer's `order uint64` counter
increments exactly as in `Iterate`. -/
def generateEmit {T : Type} (s : Nat → T) (n : Nat) : OrderedData T :=
  ⟨n % U64MOD, s n⟩

theorem ofEmit_map_data {T : Type} (data : List T) :
    (ofEmit data).map (·.data) = data := by
  simp [ofEmit, List.map_map, Function.comp]
  exact List.enum_map_snd data

theorem ofEmit_map_order {T : Type} (data : List T) :
    (ofEmit data).map (·.order) = List.range data.length := by
  simp [ofEmit, List.map_map, Function.comp]
  exact List.enum_map_fst data

/-! ## ToSlice (part_002 lines 400-439)

`ToSlice` spawns `parallelCount` collector goroutines, each of which drains
a share of the stage's items (with their `order` tags) into a local slice;
the shares are concatenated in channel-arrival order, so the combined
`ods` slice is some permutation of the stage's items.  It is then sorted
with `sort.Slice(ods, func(i, j) { return ods[i].order < ods[j].order })`.
`sort.Slice` guarantees a permutation of its input that is ordered with
respect to the `less` function; since our theorems only apply it to lists
with pairwise-distinct `order` tags, that output is unique, and we compute
it with insertion sort. -/

/-- The `less`-induced weak ordering used to model `sort.Slice`'s
postcondition in `ToSlice`. -/
def orderLE {T : Type} (a b : OrderedData T) : Prop := a.order ≤ b.order

/-- The strict comparison `ods[i].order < ods[j].order` passed to
`sort.Slice` in `ToSlice`. -/
def orderLT {T : Type} (a b : OrderedData T) : Prop := a.order < b.order

instance {T : Type} : DecidableRel (orderLE (T := T)) :=
  fun a b => Nat.decLe a.order b.order

instance {T : Type} : DecidableRel (orderLT (T := T)) :=
  fun a b => Nat.decLt a.order b.order

instance {T : Type} : IsTotal (OrderedData T) orderLE :=
  ⟨fun a b => Nat.le_total a.order b.order⟩

instance {T : Type} : IsTrans (OrderedData T) orderLE :=
  ⟨fun _ _ _ h h' => Nat.le_trans h h'⟩

instance {T : Type} : IsAntisymm (OrderedData T) orderLT :=
  ⟨fun _ _ h h' => absurd h (Nat.lt_asymm h')⟩

/-- The sorting pass of `ToSlice` (part_002 lines 428-430). -/
def sortByOrder {T : Type} (l : List (OrderedData T)) : List (OrderedData T) :=
  l.insertionSort orderLE

/-- `ToSlice` as a function of the combined collected items: sort by
`order` and copy out the `data` fields (part_002 lines 428-438). -/
def toSliceModel {T : Type} (collected : List (OrderedData T)) : List T :=
  (sortByOrder collected).map (·.data)

/-- Sorting by `order` any permutation of a list whose `order` tags are
strictly increasing recovers that list exactly. -/
theorem sortByOrder_restore {T : Type} (src collected : List (OrderedData T))
    (hperm : collected.Perm src)
    (hsorted : (src.map (·.order)).Pairwise (· < ·)) :
    sortByOrder collected = src := by
  have hps : (sortByOrder collected).Perm src :=
    (List.perm_insertionSort orderLE collected).trans hperm
  have hsortLE : List.Sorted orderLE (sortByOrder collected) :=
    List.sorted_insertionSort orderLE collected
  have hsrcLT : List.Sorted orderLT src := by
    unfold List.Sorted
    exact (List.pairwise_map (f := fun x : OrderedData T => x.order)).mp hsorted
  have hnodup_src : (src.map (·.order)).Nodup :=
    hsorted.imp (fun h => Nat.ne_of_lt h)
  have hnodup : ((sortByOrder collected).map (·.order)).Nodup :=
    ((hps.map (·.order)).nodup_iff).mpr hnodup_src
  have hne : (sortByOrder collected).Pairwise
      (fun a b : OrderedData T => a.order ≠ b.order) :=
    (List.pairwise_map (f := fun x : OrderedData T => x.order)).mp hnodup
  have hsortLT : List.Sorted orderLT (sortByOrder collected) := by
    unfold List.Sorted
    exact (List.Pairwise.and hsortLE hne).imp
      (fun h => Nat.lt_of_le_of_ne h.1 h.2)
  exact List.eq_of_perm_of_sorted hps hsortLT hsrcLT

/-- **C1**: `ToSlice` returns the elements in original encounter order:
the collected `(order, value)` pairs — an arbitrary channel-arrival
permutation of the source's tagged items (the sequential case is the
identity permutation) — are sorted by `order` and materialised, and the
result equals the source sequence. -/
theorem toSlice_restores_encounter_order {T : Type} (vals : List T)
    (collected : List (OrderedData T))
    (hperm : collected.Perm (ofEmit vals)) :
    toSliceModel collected = vals := by
  have hsorted : ((ofEmit vals).map (·.order)).Pairwise (· < ·) := by
    rw [ofEmit_map_order]
    exact List.pairwise_lt_range _
  rw [toSliceModel, sortByOrder_restore _ _ hperm hsorted, ofEmit_map_data]

/-- Witness for C1: a concrete out-of-order parallel collection of the
source `[5, 7]` is restored to `[5, 7]`. -/
theorem toSlice_restores_encounter_order_witness :
    toSliceModel [⟨1, 7⟩, ⟨0, (5 : Nat)⟩] = [5, 7] :=
  toSlice_restores_encounter_order [5, 7] [⟨1, 7⟩, ⟨0, 5⟩] (by decide)

/-! ## C2: sequence numbers within one producer -/

theorem iterateEmit_order {T : Type} (seed : T) (f : T → T) (n : Nat)
    (hn : n < U64MOD) : (iterateEmit seed f n).order = n := by
  simp [iterateEmit, Nat.mod_eq_of_lt hn]

theorem generateEmit_order {T : Type} (s : Nat → T) (n : Nat)
    (hn : n < U64MOD) : (generateEmit s n).order = n := by
  simp [generateEmit, Nat.mod_eq_of_lt hn]

/-- **C2**: within one producer (`Of`, `Iterate`, `Generate`) the `i`-th
emitted item (0-based) carries sequence number `i`, hence the numbers are
strictly increasing from 0.  The producers' `order` counter is a `uint64`,
so the statement is made for the representable range `i < 2^64` (Go cannot
index a slice beyond `2^63 - 1`, and an `Iterate`/`Generate` producer would
wrap only after `2^64` emissions). -/
theorem producer_sequence_numbers {T : Type} (data : List T) (seed : T)
    (f : T → T) (s : Nat → T) (i j : Nat) (hi : i < U64MOD) (hj : j < i) :
    (ofEmit data).map (·.order) = List.range data.length ∧
    (iterateEmit seed f i).order = i ∧
    (generateEmit s i).order = i ∧
    (iterateEmit seed f j).order < (iterateEmit seed f i).order ∧
    (generateEmit s j).order < (generateEmit s i).order := by
  have hj' : j < U64MOD := Nat.lt_trans hj hi
  refine ⟨ofEmit_map_order data, iterateEmit_order seed f i hi,
    generateEmit_order s i hi, ?_, ?_⟩
  · rw [iterateEmit_order seed f i hi, iterateEmit_order seed f j hj']
    exact hj
  · rw [generateEmit_order s i hi, generateEmit_order s j hj']
    exact hj

/-- Witness for C2 at `i = 5`, `j = 2` over concrete producers. -/
theorem producer_sequence_numbers_witness :
    (ofEmit [10, 20, 30]).map (·.order) = List.range 3 ∧
    (iterateEmit (0 : Nat) (· + 1) 5).order = 5 ∧
    (generateEmit (fun _ => (7 : Nat)) 5).order = 5 ∧
    (iterateEmit (0 : Nat) (· + 1) 2).order < (iterateEmit (0 : Nat) (· + 1) 5).order ∧
    (generateEmit (fun _ => (7 : Nat)) 2).order < (generateEmit (fun _ => (7 : Nat)) 5).order :=
  producer_sequence_numbers [10, 20, 30] 0 (· + 1) (fun _ => 7) 5 2
    (by norm_num [U64MOD]) (by norm_num)

/-! ## Limit and Skip workers (part_002 lines 318-398) -/

/-- The request loop of the `limit` worker for `maxSize > 0` (part_002
lines 343-357): each downstream request pulls one upstream item
(`getPrevData`); if the upstream is exhausted the stage closes, otherwise
the item is forwarded, `count` is decremented, and the stage closes as
soon as `count` reaches zero — issuing no further upstream pulls.  Returns
the forwarded items and the number of upstream pulls performed. -/
def limitLoop {α : Type} : Int → List α → List α × Nat
  | _, [] => ([], 1)
  | count, x :: xs =>
      if count - 1 = 0 then ([x], 1)
      else
        let r := limitLoop (count - 1) xs
        (x :: r.1, r.2 + 1)

/-- The `limit` worker (part_002 lines 334-358): a negative `maxSize`
panics (the panic is raised inside the spawned worker goroutine, crashing
the process), `maxSize == 0` closes immediately without pulling anything,
and otherwise the request loop runs. -/
def limitRun {α : Type} (maxSize : Int) (src : List α) :
    Except String (List α × Nat) :=
  if maxSize < 0 then .error "maxSize must not be negative"
  else if maxSize = 0 then .ok ([], 0)
  else .ok (limitLoop maxSize src)

theorem limitLoop_spec {α : Type} (src : List α) :
    ∀ count : Int, 0 < count →
      (limitLoop count src).1 = src.take count.toNat ∧
      (limitLoop count src).2 ≤ count.toNat := by
  induction src with
  | nil =>
      intro count hc
      constructor
      · simp [limitLoop]
      · simp only [limitLoop]
        omega
  | cons x xs ih =>
      intro count hc
      by_cases h1 : count - 1 = 0
      · have h2 : count.toNat = 1 := by omega
        rw [limitLoop, if_pos h1, h2]
        simp
      · have hc' : 0 < count - 1 := by omega
        have htn : count.toNat = (count - 1).toNat + 1 := by omega
        obtain ⟨ht, hp⟩ := ih (count - 1) hc'
        rw [limitLoop, if_neg h1, htn]
        constructor
        · simp [ht]
        · simpa using hp

/-- **C5**: `Limit(n)`: for `n < 0` the worker fails fast with a panic;
for `n == 0` it closes immediately with an empty result and zero upstream
pulls; for `n > 0` it forwards exactly the first `n` upstream items (all
of them if fewer exist) and performs at most `n` upstream pulls, i.e. it
closes without issuing further upstream requests. -/
theorem limit_behaviour {α : Type} (n m : Int) (src : List α) (hn : 0 < n)
    (hm : m < 0) :
    limitRun m src = (.error "maxSize must not be negative" :
      Except String (List α × Nat)) ∧
    limitRun 0 src = .ok ([], 0) ∧
    limitRun n src = .ok (src.take n.toNat, (limitLoop n src).2) ∧
    (limitLoop n src).2 ≤ n.toNat := by
  obtain ⟨ht, hp⟩ := limitLoop_spec src n hn
  refine ⟨by simp [limitRun, hm], by simp [limitRun], ?_, hp⟩
  have hne : ¬ n < 0 := by omega
  have hne0 : ¬ n = 0 := by omega
  rw [limitRun, if_neg hne, if_neg hne0, ← ht]

/-- Witness for C5 at `n = 2` over the 3-item source `[4, 5, 6]`. -/
theorem limit_behaviour_witness :
    limitRun (-1) [4, 5, 6] = (.error "maxSize must not be negative" :
      Except String (List Nat × Nat)) ∧

    limitRun 0 [4, 5, 6] = .ok ([], 0) ∧
    limitRun 2 [(4 : Nat), 5, 6] = .ok ([4, 5], (limitLoop 2 [4, 5, 6]).2) ∧
    (limitLoop 2 [(4 : Nat), 5, 6]).2 ≤ (2 : Int).toNat :=
  limit_behaviour 2 (-1) [4, 5, 6] (by norm_num) (by norm_num)

/-- The forwarding phase of the `skip` worker (part_002 lines 388-394):
once the skip counter has reached zero, every downstream request pulls one
upstream item and forwards it unchanged (tag included) until the upstream
is exhausted. -/
def forwardRest {α : Type} : List α → List α
  | [] => []
  | x :: xs => x :: forwardRest xs

/-- The `skip` worker (part_002 lines 377-398): on each request it first
pulls and discards upstream items while `n > 0` (closing early if the
upstream is exhausted during the skip phase); `n` is decremented
persistently, so the skip phase effectively runs once, after which items
are forwarded unchanged. -/
def skipRun {α : Type} : Int → List α → List α
  | _, [] => []
  | n, x :: xs => if 0 < n then skipRun (n - 1) xs else forwardRest (x :: xs)

theorem forwardRest_eq {α : Type} (l : List α) : forwardRest l = l := by
  induction l with
  | nil => rfl
  | cons x xs ih => rw [forwardRest, ih]

theorem skipRun_eq_drop {α : Type} (src : List α) :
    ∀ n : Int, skipRun n src = src.drop n.toNat := by
  induction src with
  | nil => intro n; simp [skipRun]
  | cons x xs ih =>
      intro n
      by_cases hn : 0 < n
      · have h1 : n.toNat = (n - 1).toNat + 1 := by omega
        rw [skipRun, if_pos hn, h1, List.drop_succ_cons, ih]
      · have h0 : n.toNat = 0 := by omega
        rw [skipRun, if_neg hn, forwardRest_eq, h0, List.drop_zero]

set_option maxRecDepth 10000 in
/-- **C6**: `Skip(n)` discards exactly the first `n` upstream items
(stopping early when the upstream is exhausted first — the drop of a
shorter list) and forwards the remaining items unchanged; in particular
the pipeline `Of(0..999).Skip(10).Limit(90).ToSlice()` yields `[10..99]`
(`List.range' 10 90`). -/
theorem skip_behaviour {α : Type} (n : Int) (src : List α) :
    skipRun n src = src.drop n.toNat ∧
    (limitRun 90 (skipRun 10 (ofEmit (List.range 1000)))).map
      (fun r => toSliceModel r.1) = .ok (List.range' 10 90) := by
  refine ⟨skipRun_eq_drop src n, ?_⟩
  rw [skipRun_eq_drop]
  have h10 : (10 : Int).toNat = 10 := rfl
  rw [h10]
  have h90 : limitRun 90 ((ofEmit (List.range 1000)).drop 10) =
      .ok (((ofEmit (List.range 1000)).drop 10).take (90 : Int).toNat,
        (limitLoop 90 ((ofEmit (List.range 1000)).drop 10)).2) := by
    exact (limit_behaviour 90 (-1)
      ((ofEmit (List.range 1000)).drop 10) (by norm_num) (by norm_num)).2.2.1
  rw [h90]
  have htake : (90 : Int).toNat = 90 := rfl
  rw [htake, Except.map]
  set items : List (OrderedData Nat) :=
    ((ofEmit (List.range 1000)).drop 10).take 90 with hitems
  have hmap_order : items.map (·.order) = ((List.range 1000).drop 10).take 90 := by
    rw [hitems, List.map_take, List.map_drop, ofEmit_map_order, List.length_range]
  have hpair : (items.map (·.order)).Pairwise (· < ·) := by
    rw [hmap_order]
    exact List.Pairwise.sublist
      ((List.take_sublist _ _).trans (List.drop_sublist _ _))
      (List.pairwise_lt_range 1000)
  have hsort : sortByOrder items = items :=
    sortByOrder_restore items items (List.Perm.refl _) hpair
  have hdata : items.map (·.data) = ((List.range 1000).drop 10).take 90 := by
    rw [hitems, List.map_take, List.map_drop, ofEmit_map_data]
  have hfin : ((List.range 1000).drop 10).take 90 = List.range' 10 90 := by
    decide
  simp only [Except.map, toSliceModel, hsort, hdata, hfin]

/-- Witness for C6 at `n = 2` over `[⟨0,4⟩, ⟨1,5⟩, ⟨2,6⟩]`: no `Prop`
hypothesis is present in C6, but we record the concrete instance. -/
theorem skip_behaviour_witness :
    skipRun 2 ([⟨0, 4⟩, ⟨1, 5⟩, ⟨2, 6⟩] : List (OrderedData Nat)) =
      ([⟨0, 4⟩, ⟨1, 5⟩, ⟨2, 6⟩] : List (OrderedData Nat)).drop (2 : Int).toNat :=
  (skip_behaviour 2 ([⟨0, 4⟩, ⟨1, 5⟩, ⟨2, 6⟩] : List (OrderedData Nat))).1

/-! ## Match family (part_002 lines 646-737)

Each terminal match operation runs `terminalOpMatch` in `parallelCount`
workers which share one `int64` flag (`matched`) accessed atomically.  We
model the drain of one worker's share; the result and the number of
predicate invocations is returned.  On an empty source every worker's
share is empty, so the single-share model at `[]` covers the parallel case
as well. -/

/-- `AnyMatch`'s `terminalOpMatch` closure (part_002 lines 658-669) over
one worker's item share, threading the shared `matched` flag (an `int64`,
initially `0`): if the flag is already `1` the worker stops requesting;
otherwise the predicate is invoked — `true` keeps draining, a match stores
`1` and stops.  Returns the final flag and the number of predicate
invocations. -/
def anyMatchLoop {T : Type} (p : T → Bool) : List T → Int → Int × Nat
  | [], m => (m, 0)
  | x :: xs, m =>
      if m = 1 then (m, 0)
      else if !p x then
        let r := anyMatchLoop p xs m
        (r.1, r.2 + 1)
      else (1, 1)

/-- `AnyMatch` (part_002 lines 646-675): flag starts at `0`; the result is
whether the flag ended as `1`. -/
def anyMatchRun {T : Type} (p : T → Bool) (xs : List T) : Bool × Nat :=
  let r := anyMatchLoop p xs 0
  (r.1 = 1, r.2)

/-- `AllMatch`'s closure (part_002 lines 689-698), threading the shared
flag (initially `1`): a flag of `0` stops the worker; a satisfied
predicate keeps draining; a failed one stores `0` and stops. -/
def allMatchLoop {T : Type} (p : T → Bool) : List T → Int → Int × Nat
  | [], m => (m, 0)
  | x :: xs, m =>
      if m = 0 then (m, 0)
      else if p x then
        let r := allMatchLoop p xs m
        (r.1, r.2 + 1)
      else (0, 1)

/-- `AllMatch` (part_002 lines 677-706): flag starts at `1`; the result is
whether the flag ended as `1`. -/
def allMatchRun {T : Type} (p : T → Bool) (xs : List T) : Bool × Nat :=
  let r := allMatchLoop p xs 1
  (r.1 = 1, r.2)

/-- `NoneMatch` (part_002 lines 708-737): identical loop to `AnyMatch`
(flag starts at `0`, set to `1` on a match) but the result is whether the
flag did **not** end as `1`. -/
def noneMatchRun {T : Type} (p : T → Bool) (xs : List T) : Bool × Nat :=
  let r := anyMatchLoop p xs 0
  (r.1 ≠ 1, r.2)

/-- **C8**: on an empty source, `AnyMatch` returns `false`, `AllMatch`
returns `true` and `NoneMatch` returns `true`, and in all three cases the
predicate is invoked zero times. -/
theorem match_family_empty_source {T : Type} (p : T → Bool) :
    anyMatchRun p [] = (false, 0) ∧
    allMatchRun p [] = (true, 0) ∧
    noneMatchRun p [] = (true, 0) := by
  refine ⟨?_, ?_, ?_⟩ <;>
    simp [anyMatchRun, allMatchRun, noneMatchRun, anyMatchLoop, allMatchLoop]

/-! ## FindFirst (part_002 lines 739-760)

`FindFirst` sets `terminalCloseCount` to 1 and calls `terminalOpMatch`
once, in the calling goroutine, with a closure that records the first
arriving item and returns `false` (stop).  `terminalOpMatch` sends exactly
one request before each read, so at most one request is ever in flight:
exactly one of the stage's interchangeable `drain`/operator workers is
woken per request, and it pulls the next item of the shared upstream
sequence and forwards it unchanged (part_002 lines 179-189).  The pipeline
is thereby serialised, and the served item is independent of which worker
the scheduler picks. -/

/-- One request served by a parallel stage: scheduler-chosen worker `w`
receives the request token, pulls the next upstream item and forwards it
unchanged (`drain`, part_002 lines 179-189); the stage closes when the
upstream is exhausted.  The outcome does not depend on `w` because every
worker runs the same forwarding body. -/
def drainServe {T : Type} (w : Nat) (remaining : List (OrderedData T)) :
    Option (OrderedData T) × List (OrderedData T) :=
  match w, remaining with
  | _, [] => (none, [])
  | _, x :: xs => (some x, xs)

/-- `FindFirst` under scheduler `sched` (choosing the worker that serves
each request): the closure stores the first arriving item (`foundAny`,
`result`) and stops; an exhausted source yields an empty `Optional`
(modelled as `none`). -/
def findFirstRun {T : Type} (sched : Nat → Nat)
    (src : List (OrderedData T)) : Option T :=
  ((drainServe (sched 0) src).1).map (·.data)

/-- **C4**: `FindFirst` drains via a single worker (one in-flight request)
and returns the first element of the stream in encounter order — the head
of the linearised sequence, which carries the minimal `order` tag — or an
empty `Optional` on an empty stream; the result is identical for any two
schedulers, i.e. deterministic across runs on an equivalent source,
parallel ones included. -/
theorem findFirst_deterministic {T : Type} (src : List (OrderedData T))
    (s₁ s₂ : Nat → Nat) (hpair : src.Pairwise orderLT) :
    findFirstRun s₁ src = findFirstRun s₂ src ∧
    findFirstRun s₁ src = src.head?.map (·.data) ∧
    findFirstRun s₁ ([] : List (OrderedData T)) = none ∧
    (∀ x, src.head? = some x → ∀ y ∈ src, x.order ≤ y.order) := by
  refine ⟨?_, ?_, rfl, ?_⟩
  · cases src <;> rfl
  · cases src <;> rfl
  · intro x hx y hy
    cases src with
    | nil => exact absurd hx (by simp)
    | cons a l =>
        have hax : a = x := by simpa using hx
        subst hax
        rcases List.mem_cons.mp hy with h | h
        · exact h ▸ Nat.le_refl _
        · exact Nat.le_of_lt ((List.pairwise_cons.mp hpair).1 y h)

/-- Witness for C4: two different schedulers over the tagged source
`[⟨0,8⟩, ⟨1,9⟩]` both return `some 8`, the minimal-order element. -/
theorem findFirst_deterministic_witness :
    findFirstRun (fun _ => 0) ([⟨0, 8⟩, ⟨1, 9⟩] : List (OrderedData Nat)) =
      findFirstRun (fun _ => 3) ([⟨0, 8⟩, ⟨1, 9⟩] : List (OrderedData Nat)) ∧
    findFirstRun (fun _ => 0) ([⟨0, 8⟩, ⟨1, 9⟩] : List (OrderedData Nat)) =
      ([⟨0, 8⟩, ⟨1, 9⟩] : List (OrderedData Nat)).head?.map (·.data) ∧
    findFirstRun (fun _ => 0) ([] : List (OrderedData Nat)) = none ∧
    (∀ x, ([⟨0, 8⟩, ⟨1, 9⟩] : List (OrderedData Nat)).head? = some x →
      ∀ y ∈ ([⟨0, 8⟩, ⟨1, 9⟩] : List (OrderedData Nat)), x.order ≤ y.order) :=
  findFirst_deterministic [⟨0, 8⟩, ⟨1, 9⟩] (fun _ => 0) (fun _ => 3)
    (by decide)

/-! ## FlatMap (stream_func.go lines 72-131) -/

/-- Drain of one nested stream opened by `FlatMap` (stream_func.go lines
107-121): each nested item `r` is forwarded with tag
`(r.order + offset) mod 2^64` (uint64 addition) and `lastOrder` is set to
`r.order`; when the nested stream is exhausted the carried `lastOrder` is
returned unchanged (so an empty nested stream leaves it at the previous
nested stream's final value).  Returns the emitted items and the final
`lastOrder`. -/
def drainInner {R : Type} (offset : Nat) :
    List (OrderedData R) → Nat → List (OrderedData R) × Nat
  | [], last => ([], last)
  | r :: rs, _ =>
      let t := drainInner offset rs r.order
      (⟨(r.order + offset) % U64MOD, r.data⟩ :: t.1, t.2)

/-- The `FlatMap` worker loop (stream_func.go lines 87-123) over the
nested item lists (one per upstream element; the upstream item's own tag
is ignored): after each nested list is drained — also an empty one —
`offset += lastOrder + 1` in uint64 arithmetic. `offset` and `lastOrder`
start at 0. -/
def flatMapEmit {R : Type} :
    List (List (OrderedData R)) → Nat → Nat → List (OrderedData R)
  | [], _, _ => []
  | inner :: rest, offset, last =>
      let t := drainInner offset inner last
      t.1 ++ flatMapEmit rest ((offset + t.2 + 1) % U64MOD) t.2

/-! ## Stage state (`genericStream`, part_002 lines 21-57)

The observable state of a stage: the bookkeeping fields guarded by the
stage lock plus the linearised sequence of items the stage emits over its
`nextData` channel to a serial consumer.  Channel endpoints themselves are
not represented.  Every operator below validates the stage
(`validateState`, part_002 lines 59-66) and panics — modelled as
`Except.error` — when it was already closed. -/

structure StreamState (T : Type) where
  closed : Bool
  parallel : Bool
  parallelCount : Int
  ordered : Bool
  terminalCloseCount : Int
  items : List (OrderedData T)
deriving DecidableEq, Repr

instance {ε α : Type} [DecidableEq ε] [DecidableEq α] :
    DecidableEq (Except ε α)
  | .error e, .error f =>
      if h : e = f then .isTrue (by rw [h]) else .isFalse (by simp [h])
  | .error _, .ok _ => .isFalse (by simp)
  | .ok _, .error _ => .isFalse (by simp)
  | .ok a, .ok b =>
      if h : a = b then .isTrue (by rw [h]) else .isFalse (by simp [h])

/-- `validateState` (part_002 lines 59-66): panics if the stream has
already been closed/consumed. -/
def validateState {T : Type} (gs : StreamState T) : Except String Unit :=
  if gs.closed then .error "stream has already been closed" else .ok ()

/-- `Of(data...)` (stream_func.go lines 135-170): a fresh sequential
source; the Go struct literal sets only `parallelCount: 1` and the
channels, so `parallel`, `ordered` and `closed` are zero-valued `false`
and `terminalCloseCount` is `0`. -/
def ofStream {T : Type} (data : List T) : StreamState T :=
  { closed := false, parallel := false, parallelCount := 1, ordered := false,
    terminalCloseCount := 0, items := ofEmit data }

/-- `Empty()` (stream_func.go lines 347-362): `parallelCount: 1`, all
other fields zero-valued, no items. -/
def emptyStream {T : Type} : StreamState T :=
  { closed := false, parallel := false, parallelCount := 1, ordered := false,
    terminalCloseCount := 0, items := [] }

/-- `Parallel()` (part_002 lines 157-177), with the process-wide
`runtime.GOMAXPROCS(-1)` value passed explicitly as `gmp`: a no-op if the
stage is already parallel, otherwise a new stage with
`parallelCount = terminalCloseCount = gmp`.  `newGenericStream` (part_002
lines 43-57) copies `parallel`, `parallelCount` and `terminalCloseCount`
but never the `ordered` field, and `Parallel` does not set it either, so
the new stage has `ordered = false`.  The `drain` workers forward items
unchanged. -/
def parallelOp {T : Type} (gmp : Int) (gs : StreamState T) :
    Except String (StreamState T) :=
  match validateState gs with
  | .error e => .error e
  | .ok _ =>
      if gs.parallel then .ok gs
      else .ok { closed := false, parallel := true, parallelCount := gmp,
                 ordered := false, terminalCloseCount := gmp,
                 items := gs.items }

/-- `Filter(predicate)` (part_002 lines 191-222): workers forward exactly
the items whose data satisfies the predicate, tags unchanged; flags come
from `newGenericStream` (which leaves `ordered` at `false`). -/
def filterOp {T : Type} (p : T → Bool) (gs : StreamState T) :
    Except String (StreamState T) :=
  match validateState gs with
  | .error e => .error e
  | .ok _ =>
      .ok { closed := false, parallel := gs.parallel,
            parallelCount := gs.parallelCount, ordered := false,
            terminalCloseCount := gs.terminalCloseCount,
            items := gs.items.filter (fun od => p od.data) }

/-- `Map(stream, mapper)` (stream_func.go lines 15-67): transforms the
data and keeps the `order` tag; the returned struct literal sets only
`parallel` and `parallelCount`, leaving `ordered` and
`terminalCloseCount` zero-valued. -/
def mapOp {T R : Type} (f : T → R) (gs : StreamState T) :
    Except String (StreamState R) :=
  match validateState gs with
  | .error e => .error e
  | .ok _ =>
      .ok { closed := false, parallel := gs.parallel,
            parallelCount := gs.parallelCount, ordered := false,
            terminalCloseCount := 0,
            items := gs.items.map (fun od => ⟨od.order, f od.data⟩) }

/-- `Peek(action)` (part_002 lines 292-316): pass-through. -/
def peekOp {T : Type} (gs : StreamState T) : Except String (StreamState T) :=
  match validateState gs with
  | .error e => .error e
  | .ok _ =>
      .ok { closed := false, parallel := gs.parallel,
            parallelCount := gs.parallelCount, ordered := false,
            terminalCloseCount := gs.terminalCloseCount,
            items := gs.items }

/-- `Limit(maxSize)` (part_002 lines 318-332) plus its worker: panics when
the stage is `ordered` with more than one worker, otherwise forces the new
stage to a single worker and runs the `limit` worker (whose negative-size
panic is raised from the spawned goroutine). -/
def limitOp {T : Type} (maxSize : Int) (gs : StreamState T) :
    Except String (StreamState T) :=
  match validateState gs with
  | .error e => .error e
  | .ok _ =>
      if gs.ordered ∧ 1 < gs.parallelCount then
        .error "Limit doesn't support ordered parallel stream"
      else
        match limitRun maxSize gs.items with
        | .error e => .error e
        | .ok r =>
            .ok { closed := false, parallel := gs.parallel,
                  parallelCount := 1, ordered := false,
                  terminalCloseCount := gs.terminalCloseCount,
                  items := r.1 }

/-- `Skip(n)` (part_002 lines 360-375) plus its worker: same
ordered-parallel guard with its own message, single downstream worker,
then the `skip` worker. -/
def skipOp {T : Type} (n : Int) (gs : StreamState T) :
    Except String (StreamState T) :=
  match validateState gs with
  | .error e => .error e
  | .ok _ =>
      if gs.ordered ∧ 1 < gs.parallelCount then
        .error "Skip doesn't support ordered parallel stream"
      else
        .ok { closed := false, parallel := gs.parallel,
              parallelCount := 1, ordered := false,
              terminalCloseCount := gs.terminalCloseCount,
              items := skipRun n gs.items }

/-- `FlatMap(stream, mapper)` (stream_func.go lines 72-131): the mapper is
modelled by the linearised item list of the nested stream it opens for
each upstream value; the single worker renumbers via `flatMapEmit` and
the returned struct literal sets only `parallelCount: 1`, so the result
is always a sequential single-worker stage. -/
def flatMapOp {T R : Type} (mapper : T → List (OrderedData R))
    (gs : StreamState T) : Except String (StreamState R) :=
  match validateState gs with
  | .error e => .error e
  | .ok _ =>
      .ok { closed := false, parallel := false, parallelCount := 1,
            ordered := false, terminalCloseCount := 0,
            items := flatMapEmit (gs.items.map (fun od => mapper od.data)) 0 0 }

/-- `Close()` (part_002 lines 224-228): after `validateState` it
unconditionally panics with "Not Implemented Yet"; no channel is closed
and nothing else happens (the code base has no close-handler mechanism at
all, although the `BaseStream` interface documentation promises that
`Close` causes all close handlers to be called). -/
def closeOp {T : Type} (gs : StreamState T) : Except String Unit :=
  match validateState gs with
  | .error e => .error e
  | .ok _ => .error "Not Implemented Yet"

/-- The `Sorted(cmp)` method (part_002 lines 251-290) as a function of the
drained value list `arrival`: sequentially that list is the stage's values
in encounter order; in the parallel branch it is the concatenation of the
worker partial slices in channel-arrival order — some permutation of the
stage's values.  The drained slice is sorted with
`slices.SortFunc(dataSlice, cmp)` — which guarantees an ascending
permutation but is documented by Go as not guaranteed to be stable; we
compute a representative ascending permutation with insertion sort, and
the theorems below rely only on sortedness and permutation facts about
it — and the sorted slice is re-exposed as `Of(dataSlice...)`. -/
def sortedMethod {T : Type} (cmp : T → T → Int) (arrival : List T) :
    StreamState T :=
  ofStream (arrival.insertionSort (fun a b => cmp a b ≤ 0))

/-! ## C10: Close panics -/

/-- **C10**: on any stream that is not already closed, the public
`Close()` method unconditionally panics with "Not Implemented Yet": it
closes nothing and invokes no close handler (none exist anywhere in the
code base), contrary to the `BaseStream` interface documentation
(stream.go lines 7-11) which promises that `Close` causes all close
handlers for the pipeline to be called. -/
theorem close_not_implemented {T : Type} (gs : StreamState T)
    (h : gs.closed = false) :
    closeOp gs = .error "Not Implemented Yet" := by
  simp [closeOp, validateState, h]

/-- Witness for C10 on the open stream `Of(1, 2, 3)`. -/
theorem close_not_implemented_witness :
    closeOp (ofStream ([1, 2, 3] : List Nat)) = .error "Not Implemented Yet" :=
  close_not_implemented (ofStream [1, 2, 3]) rfl

/-! ## C9: the ordered-parallel guard of Limit and Skip

`Limit` and `Skip` panic when `gs.ordered && gs.parallelCount > 1`
(part_002 lines 321-323 and 363-365).  However, no constructor or
operator in the library ever assigns `ordered = true`: the struct literals
in stream_func.go leave it zero-valued and `newGenericStream` (part_002
lines 43-57) does not copy it, so the guard can never fire on a stream
built from the library's own constructors — `Of(...).Parallel().Limit(n)`
does not panic. -/

/-- Streams reachable from the library's own constructors and operators
(with the process-wide `GOMAXPROCS` value `gmp`). -/
inductive Built (gmp : Int) : {T : Type} → StreamState T → Prop
  | of {T : Type} (data : List T) : Built gmp (ofStream data)
  | empty {T : Type} : Built gmp (emptyStream (T := T))
  | par {T : Type} {gs gs' : StreamState T} :
      Built gmp gs → parallelOp gmp gs = .ok gs' → Built gmp gs'
  | filter {T : Type} (p : T → Bool) {gs gs' : StreamState T} :
      Built gmp gs → filterOp p gs = .ok gs' → Built gmp gs'
  | mapS {T R : Type} (f : T → R) {gs : StreamState T} {gs' : StreamState R} :
      Built gmp gs → mapOp f gs = .ok gs' → Built gmp gs'
  | peek {T : Type} {gs gs' : StreamState T} :
      Built gmp gs → peekOp gs = .ok gs' → Built gmp gs'
  | limit {T : Type} (n : Int) {gs gs' : StreamState T} :
      Built gmp gs → limitOp n gs = .ok gs' → Built gmp gs'
  | skip {T : Type} (n : Int) {gs gs' : StreamState T} :
      Built gmp gs → skipOp n gs = .ok gs' → Built gmp gs'
  | flatMap {T R : Type} (mapper : T → List (OrderedData R))
      {gs : StreamState T} {gs' : StreamState R} :
      Built gmp gs → flatMapOp mapper gs = .ok gs' → Built gmp gs'
  | sortedM {T : Type} (cmp : T → T → Int) (arrival : List T) :
      Built gmp (sortedMethod cmp arrival)

/-- No reachable stream is closed or ordered: every constructor and every
operator's result literal has `closed = false` and `ordered = false`. -/
theorem built_not_ordered {gmp : Int} {T : Type} {gs : StreamState T}
    (hb : Built gmp gs) : gs.ordered = false ∧ gs.closed = false := by
  induction hb with
  | of data => exact ⟨rfl, rfl⟩
  | empty => exact ⟨rfl, rfl⟩
  | par hb h ih =>
      rw [parallelOp, validateState, if_neg (by simp [ih.2])] at h
      simp only [] at h
      split at h
      · injection h with h'; subst h'; exact ih
      · injection h with h'; subst h'; exact ⟨rfl, rfl⟩
  | filter p hb h ih =>
      rw [filterOp, validateState, if_neg (by simp [ih.2])] at h
      injection h with h'; subst h'; exact ⟨rfl, rfl⟩
  | mapS f hb h ih =>
      rw [mapOp, validateState, if_neg (by simp [ih.2])] at h
      injection h with h'; subst h'; exact ⟨rfl, rfl⟩
  | peek hb h ih =>
      rw [peekOp, validateState, if_neg (by simp [ih.2])] at h
      injection h with h'; subst h'; exact ⟨rfl, rfl⟩
  | limit n hb h ih =>
      rw [limitOp, validateState, if_neg (by simp [ih.2])] at h
      simp only [] at h
      split at h
      · exact absurd h (by simp)
      · split at h
        · exact absurd h (by simp)
        · injection h with h'; subst h'; exact ⟨rfl, rfl⟩
  | skip n hb h ih =>
      rw [skipOp, validateState, if_neg (by simp [ih.2])] at h
      simp only [] at h
      split at h
      · exact absurd h (by simp)
      · injection h with h'; subst h'; exact ⟨rfl, rfl⟩
  | flatMap mapper hb h ih =>
      rw [flatMapOp, validateState, if_neg (by simp [ih.2])] at h
      injection h with h'; subst h'; exact ⟨rfl, rfl⟩
  | sortedM cmp arrival => exact ⟨rfl, rfl⟩

theorem limitRun_ok {α : Type} (n : Int) (src : List α) (hn : 0 ≤ n) :
    ∃ r, limitRun n src = .ok r := by
  rw [limitRun, if_neg (by omega)]
  split
  · exact ⟨([], 0), rfl⟩
  · exact ⟨_, rfl⟩

/-- The stage produced by `Of(0,1,2).Parallel()` with `GOMAXPROCS = 8`:
an order-carrying multi-worker parallel stage with `ordered = false`. -/
def parThree : StreamState Nat :=
  { closed := false, parallel := true, parallelCount := 8, ordered := false,
    terminalCloseCount := 8, items := ofEmit [0, 1, 2] }

/-- **C9 counterexample**: `Of(0,1,2).Parallel()` (with `GOMAXPROCS = 8`)
is a multi-worker, order-tag-preserving parallel stage, yet its `ordered`
field is `false` (no constructor ever sets it), so `Limit(2)` and
`Skip(1)` both succeed instead of failing fast — the claim that the
fail-fast check "actually fires for such stages" is false. -/
theorem limit_skip_guard_never_fires :
    parallelOp 8 (ofStream ([0, 1, 2] : List Nat)) = .ok parThree ∧
    parThree.parallel = true ∧ parThree.parallelCount = 8 ∧
    parThree.ordered = false ∧
    (limitOp 2 parThree).isOk = true ∧
    (skipOp 1 parThree).isOk = true := by decide

/-- **C9 amended**: applying `Limit(n)` or `Skip(n)` to a stage whose
`ordered` flag is set and whose `parallelCount` exceeds 1 does fail fast
with a panic; but no pipeline built from the library's own constructors
and operators (including `Parallel()`) ever produces such a stage — their
`ordered` flag is always `false` — so on every such pipeline the guard
never fires and `Limit`/`Skip` succeed (for `n ≥ 0`), forcing the new
stage to exactly one worker. -/
theorem limit_skip_guard (gmp n : Int) {T : Type} (gs : StreamState T)
    (hb : Built gmp gs) (hn : 0 ≤ n) :
    gs.ordered = false ∧
    (∃ gs', limitOp n gs = .ok gs' ∧ gs'.parallelCount = 1) ∧
    (∃ gs', skipOp n gs = .ok gs' ∧ gs'.parallelCount = 1) ∧
    (∀ go : StreamState T, go.closed = false → go.ordered = true →
      1 < go.parallelCount →
      limitOp n go = .error "Limit doesn't support ordered parallel stream" ∧
      skipOp n go = .error "Skip doesn't support ordered parallel stream") := by
  obtain ⟨hord, hcl⟩ := built_not_ordered hb
  refine ⟨hord, ?_, ?_, ?_⟩
  · obtain ⟨r, hr⟩ := limitRun_ok n gs.items hn
    refine ⟨{ closed := false, parallel := gs.parallel, parallelCount := 1,
              ordered := false, terminalCloseCount := gs.terminalCloseCount,
              items := r.1 }, ?_, rfl⟩
    rw [limitOp, validateState, if_neg (by simp [hcl])]
    simp only []
    rw [if_neg (by simp [hord]), hr]
  · refine ⟨{ closed := false, parallel := gs.parallel, parallelCount := 1,
              ordered := false, terminalCloseCount := gs.terminalCloseCount,
              items := skipRun n gs.items }, ?_, rfl⟩
    rw [skipOp, validateState, if_neg (by simp [hcl])]
    simp only []
    rw [if_neg (by simp [hord])]
  · intro go hcl' hord' hpc
    constructor
    · rw [limitOp, validateState, if_neg (by simp [hcl'])]
      simp only []
      rw [if_pos ⟨by simp [hord'], hpc⟩]
    · rw [skipOp, validateState, if_neg (by simp [hcl'])]
      simp only []
      rw [if_pos ⟨by simp [hord'], hpc⟩]

/-- Witness for the amended C9 on `Of(0,1,2).Parallel()` with
`GOMAXPROCS = 8` and `n = 2`. -/
theorem limit_skip_guard_witness :
    parThree.ordered = false ∧
    (∃ gs', limitOp 2 parThree = .ok gs' ∧ gs'.parallelCount = 1) ∧
    (∃ gs', skipOp 2 parThree = .ok gs' ∧ gs'.parallelCount = 1) ∧
    (∀ go : StreamState Nat, go.closed = false → go.ordered = true →
      1 < go.parallelCount →
      limitOp 2 go = .error "Limit doesn't support ordered parallel stream" ∧
      skipOp 2 go = .error "Skip doesn't support ordered parallel stream") :=
  limit_skip_guard 8 2 parThree
    (Built.par (Built.of [0, 1, 2]) (by decide)) (by norm_num)

/-! ## C3: the Sorted method -/

/-- Comparator on pairs of naturals comparing only the first component —
a total preorder with genuine ties. -/
def cmpFst (a b : Nat × Nat) : Int := (a.1 : Int) - b.1

/-- **C3 counterexample**: source `Of((1,1),(1,2))` made parallel with two
workers: one worker drains `(1,2)`, the other `(1,1)`, and the first
worker's partial slice arrives first on the `slices` channel (part_002
lines 261-279), so the drained `dataSlice` is `[(1,2),(1,1)]` — an
admissible permutation of the upstream values.  The two elements compare
equal under `cmpFst`, so even a perfectly stable sort leaves them in
arrival order, and the output `[(1,2),(1,1)]` does not keep their
relative encounter order `[(1,1),(1,2)]`: the claim's "stable … elements
comparing equal keep their relative encounter order" is false for a
parallel upstream (and Go's `slices.SortFunc` does not even guarantee
stability for a sequential one). -/
theorem sorted_method_not_stable :
    [((1 : Nat), (2 : Nat)), (1, 1)].Perm [(1, 1), (1, 2)] ∧
    cmpFst (1, 1) (1, 2) = 0 ∧
    (sortedMethod cmpFst [(1, 2), (1, 1)]).items.map (·.data) =
      [(1, 2), (1, 1)] ∧
    [((1 : Nat), (2 : Nat)), (1, 1)] ≠ [(1, 1), (1, 2)] := by decide

/-- **C3 amended**: `Sorted` drains its upstream completely (in the
parallel case concatenating each worker's partial list in channel-arrival
order — some permutation of the upstream values), sorts the drained slice
ascending by the comparator (a comparison sort; stability is not
guaranteed), and returns a brand-new open sequential single-worker source
whose items carry fresh sequence numbers `0..n-1`. -/
theorem sorted_method_spec {T : Type} (cmp : T → T → Int)
    (vals arrival : List T) (hperm : arrival.Perm vals)
    (htot : ∀ a b, cmp a b ≤ 0 ∨ cmp b a ≤ 0)
    (htrans : ∀ a b c, cmp a b ≤ 0 → cmp b c ≤ 0 → cmp a c ≤ 0) :
    ((sortedMethod cmp arrival).items.map (·.data)).Perm vals ∧
    List.Pairwise (fun a b => cmp a b ≤ 0)
      ((sortedMethod cmp arrival).items.map (·.data)) ∧
    (sortedMethod cmp arrival).items.map (·.order) =
      List.range vals.length ∧
    (sortedMethod cmp arrival).parallel = false ∧
    (sortedMethod cmp arrival).parallelCount = 1 ∧
    (sortedMethod cmp arrival).closed = false := by
  letI : IsTotal T (fun a b => cmp a b ≤ 0) := ⟨htot⟩
  letI : IsTrans T (fun a b => cmp a b ≤ 0) := ⟨fun a b c => htrans a b c⟩
  have hdata : (sortedMethod cmp arrival).items.map (·.data) =
      arrival.insertionSort (fun a b => cmp a b ≤ 0) := by
    rw [sortedMethod, ofStream]
    exact ofEmit_map_data _
  refine ⟨?_, ?_, ?_, rfl, rfl, rfl⟩
  · rw [hdata]
    exact (List.perm_insertionSort _ arrival).trans hperm
  · rw [hdata]
    exact List.sorted_insertionSort _ arrival
  · rw [sortedMethod, ofStream]
    show (ofEmit _).map (·.order) = _
    rw [ofEmit_map_order, List.length_insertionSort,
      ← hperm.length_eq]

/-- Witness for the amended C3: arrival order `[(1,0),(2,0)]` of the
source values `[(2,0),(1,0)]`. -/
theorem sorted_method_spec_witness :
    ((sortedMethod cmpFst [(1, 0), (2, 0)]).items.map (·.data)).Perm
      [((2 : Nat), (0 : Nat)), (1, 0)] ∧
    List.Pairwise (fun a b => cmpFst a b ≤ 0)
      ((sortedMethod cmpFst [(1, 0), (2, 0)]).items.map (·.data)) ∧
    (sortedMethod cmpFst [(1, 0), (2, 0)]).items.map (·.order) =
      List.range ([((2 : Nat), (0 : Nat)), (1, 0)]).length ∧
    (sortedMethod cmpFst [(1, 0), (2, 0)]).parallel = false ∧
    (sortedMethod cmpFst [(1, 0), (2, 0)]).parallelCount = 1 ∧
    (sortedMethod cmpFst [(1, 0), (2, 0)]).closed = false :=
  sorted_method_spec cmpFst [(2, 0), (1, 0)] [(1, 0), (2, 0)] (by decide)
    (fun a b => by simp only [cmpFst]; omega)
    (fun a b c => by simp only [cmpFst]; omega)

/-! ## C7: FlatMap renumbering -/

/-- The value of the `lastOrder` variable after fully draining one nested
list, given its value `last` beforehand: the last nested item's
(pre-offset) tag, or `last` unchanged when the nested list is empty. -/
def lastOrderOf {R : Type} : List (OrderedData R) → Nat → Nat
  | [], last => last
  | r :: rs, _ => lastOrderOf rs r.order

theorem drainInner_snd {R : Type} (offset : Nat) :
    ∀ (inner : List (OrderedData R)) (last : Nat),
      (drainInner offset inner last).2 = lastOrderOf inner last := by
  intro inner
  induction inner with
  | nil => intro last; rfl
  | cons r rs ih => intro last; rw [drainInner, lastOrderOf]; exact ih r.order

theorem drainInner_fst_order {R : Type} (offset : Nat) :
    ∀ (inner : List (OrderedData R)) (last : Nat),
      (∀ r ∈ inner, r.order + offset < U64MOD) →
      (drainInner offset inner last).1.map (·.order) =
        inner.map (fun r => r.order + offset) := by
  intro inner
  induction inner with
  | nil => intro last _; rfl
  | cons r rs ih =>
      intro last hb
      rw [drainInner]
      simp only [List.map_cons]
      congr 1
      · exact Nat.mod_eq_of_lt (hb r (List.mem_cons_self r rs))
      · exact ih r.order (fun x hx => hb x (List.mem_cons_of_mem r hx))

theorem drainInner_fst_data {R : Type} (offset : Nat) :
    ∀ (inner : List (OrderedData R)) (last : Nat),
      (drainInner offset inner last).1.map (·.data) = inner.map (·.data) := by
  intro inner
  induction inner with
  | nil => intro last; rfl
  | cons r rs ih =>
      intro last
      rw [drainInner]
      simp only [List.map_cons]
      congr 1
      exact ih r.order

theorem le_lastOrderOf_of_lb {R : Type} :
    ∀ (l : List (OrderedData R)) (x : Nat), l.Pairwise orderLT →
      (∀ b ∈ l, x ≤ b.order) → x ≤ lastOrderOf l x := by
  intro l
  induction l with
  | nil => intro x _ _; exact Nat.le_refl x
  | cons b l ih =>
      intro x hp hb
      rw [lastOrderOf]
      have h1 : x ≤ b.order := hb b (List.mem_cons_self b l)
      have h2 : b.order ≤ lastOrderOf l b.order :=
        ih b.order (List.pairwise_cons.mp hp).2
          (fun c hc => Nat.le_of_lt ((List.pairwise_cons.mp hp).1 c hc))
      exact Nat.le_trans h1 h2

theorem le_lastOrderOf {R : Type} :
    ∀ (l : List (OrderedData R)) (last : Nat), l.Pairwise orderLT →
      ∀ r ∈ l, r.order ≤ lastOrderOf l last := by
  intro l
  induction l with
  | nil => intro last _ r hr; cases hr
  | cons a l ih =>
      intro last hp r hr
      rw [lastOrderOf]
      rcases List.mem_cons.mp hr with h | h
      · subst h
        exact le_lastOrderOf_of_lb l r.order (List.pairwise_cons.mp hp).2
          (fun c hc => Nat.le_of_lt ((List.pairwise_cons.mp hp).1 c hc))
      · exact ih a.order (List.pairwise_cons.mp hp).2 r h

/-- All the uint64 tag arithmetic in a `flatMapEmit` run stays below
`2^64` (no wrap): every emitted tag `r.order + offset` and every offset
update `offset + lastOrder + 1` is representable. -/
def flatMapNoWrap {R : Type} : List (List (OrderedData R)) → Nat → Nat → Bool
  | [], _, _ => true
  | inner :: rest, offset, last =>
      inner.all (fun r => decide (r.order + offset < U64MOD)) &&
      decide (offset + (drainInner offset inner last).2 + 1 < U64MOD) &&
      flatMapNoWrap rest (offset + (drainInner offset inner last).2 + 1)
        (drainInner offset inner last).2

/-- Core renumbering facts about the `FlatMap` worker: when no uint64 wrap
occurs and every nested list carries strictly increasing tags, the output
tags are strictly increasing and bounded below by the running offset, and
the output data is the concatenation of the nested lists' data (the full
drain of every nested sequence). -/
theorem flatMapEmit_spec {R : Type} :
    ∀ (inners : List (List (OrderedData R))) (offset last : Nat),
      flatMapNoWrap inners offset last = true →
      (∀ inner ∈ inners, inner.Pairwise orderLT) →
      ((flatMapEmit inners offset last).map (·.order)).Pairwise (· < ·) ∧
      (∀ o ∈ (flatMapEmit inners offset last).map (·.order), offset ≤ o) ∧
      (flatMapEmit inners offset last).map (·.data) =
        (inners.map (List.map (·.data))).flatten := by
  intro inners
  induction inners with
  | nil =>
      intro offset last _ _
      exact ⟨List.Pairwise.nil, by simp [flatMapEmit], by simp [flatMapEmit]⟩
  | cons inner rest ih =>
      intro offset last hw hm
      rw [flatMapNoWrap] at hw
      simp only [Bool.and_eq_true, List.all_eq_true, decide_eq_true_eq] at hw
      obtain ⟨⟨hb1, hb2⟩, hw'⟩ := hw
      have hpairInner : inner.Pairwise orderLT :=
        hm inner (List.mem_cons_self inner rest)
      have hmRest : ∀ l ∈ rest, l.Pairwise orderLT :=
        fun l hl => hm l (List.mem_cons_of_mem inner hl)
      rw [flatMapEmit]
      set L := (drainInner offset inner last).2 with hL
      have hmod : (offset + L + 1) % U64MOD = offset + L + 1 :=
        Nat.mod_eq_of_lt hb2
      rw [hmod]
      obtain ⟨ihp, ihlb, ihdata⟩ := ih (offset + L + 1) L hw' hmRest
      have hEo : (drainInner offset inner last).1.map (·.order) =
          inner.map (fun r => r.order + offset) :=
        drainInner_fst_order offset inner last hb1
      have hEd : (drainInner offset inner last).1.map (·.data) =
          inner.map (·.data) :=
        drainInner_fst_data offset inner last
      have hml : ∀ r ∈ inner, r.order ≤ L := by
        rw [hL, drainInner_snd]
        exact le_lastOrderOf inner last hpairInner
      refine ⟨?_, ?_, ?_⟩
      · rw [List.map_append, hEo]
        refine List.pairwise_append.mpr ⟨?_, ihp, ?_⟩
        · exact (List.pairwise_map (f := fun r : OrderedData R => r.order + offset)).mpr
            (hpairInner.imp (fun h => Nat.add_lt_add_right h offset))
        · intro a ha b hb
          obtain ⟨r, hr, hra⟩ := List.mem_map.mp ha
          have h1 : a ≤ L + offset := by
            rw [← hra]
            exact Nat.add_le_add_right (hml r hr) offset
          have h2 : offset + L + 1 ≤ b := ihlb b hb
          omega
      · intro o ho
        rw [List.map_append] at ho
        rcases List.mem_append.mp ho with h | h
        · rw [hEo] at h
          obtain ⟨r, _, hr⟩ := List.mem_map.mp h
          omega
        · have := ihlb o h
          omega
      · rw [List.map_append, hEd, ihdata]
        simp

/-- Mapper used for C7's concrete pipeline: upstream values `0`, `1`, `2`
open the nested streams `Of(10)`, `Of()` (empty) and `Of(20)`. -/
def exMapper : Nat → List (OrderedData Nat)
  | 0 => ofEmit [10]
  | 1 => ofEmit []
  | _ => ofEmit [20]

/-- **C7 counterexample**: `FlatMap(Of(0,1,2), exMapper)` emits the values
`10, 20` with output tags `[0, 2]`.  After the first nested stream ends
the offset becomes `0 + 1 = 1`; the *empty* second nested stream bumps it
again (`offset += lastOrder + 1` fires with `lastOrder` still `0`), so the
next emitted item is tagged `2`: the output index is strictly increasing
but **not** contiguous, refuting "one contiguous strictly increasing
output index". -/
theorem flatMap_not_contiguous :
    (flatMapOp exMapper (ofStream ([0, 1, 2] : List Nat))).map
      (fun s => s.items.map (·.order)) = .ok [0, 2] ∧
    ¬ List.Chain' (fun a b => b = a + 1) [0, 2] := by
  refine ⟨by decide, fun h => ?_⟩
  have : (2 : Nat) = 0 + 1 := List.chain'_cons.mp h |>.1
  omega

/-- **C7 amended**: `FlatMap` fully drains the nested sequence opened for
each upstream item (output data = concatenation of the nested data) and
renumbers nested items by a running offset advanced with
`offset += lastOrder + 1` each time a nested sequence ends — also for an
empty nested sequence, whose end re-adds the previous `lastOrder + 1` —
yielding a strictly increasing (but not necessarily contiguous) output
index, provided each nested sequence's own tags are strictly increasing
and no uint64 wrap occurs; the resulting stream always has exactly one
downstream worker. -/
theorem flatMap_renumbering {T R : Type} (mapper : T → List (OrderedData R))
    (gs : StreamState T) (gs' : StreamState R)
    (hok : flatMapOp mapper gs = .ok gs')
    (hwrap : flatMapNoWrap (gs.items.map (fun od => mapper od.data)) 0 0 = true)
    (hmono : ∀ od ∈ gs.items, (mapper od.data).Pairwise orderLT) :
    (gs'.items.map (·.order)).Pairwise (· < ·) ∧
    gs'.items.map (·.data) =
      ((gs.items.map (fun od => mapper od.data)).map
        (List.map (·.data))).flatten ∧
    gs'.parallelCount = 1 ∧ gs'.parallel = false ∧
    gs'.terminalCloseCount = 0 := by
  rw [flatMapOp] at hok
  rcases hval : validateState gs with e | u
  · rw [hval] at hok
    exact absurd hok (by simp)
  · rw [hval] at hok
    injection hok with h'
    subst h'
    obtain ⟨p1, _, p3⟩ := flatMapEmit_spec
      (gs.items.map (fun od => mapper od.data)) 0 0 hwrap
      (fun inner hin => by
        obtain ⟨od, hod, hodeq⟩ := List.mem_map.mp hin
        rw [← hodeq]
        exact hmono od hod)
    exact ⟨p1, p3, rfl, rfl, rfl⟩

/-- The stage `FlatMap(Of(0,1,2), exMapper)` evaluates to. -/
def flatMapExample : StreamState Nat :=
  { closed := false, parallel := false, parallelCount := 1, ordered := false,
    terminalCloseCount := 0,
    items := flatMapEmit ((ofStream ([0, 1, 2] : List Nat)).items.map
      (fun od => exMapper od.data)) 0 0 }

/-- Witness for the amended C7 on `FlatMap(Of(0,1,2), exMapper)`. -/
theorem flatMap_renumbering_witness :
    (flatMapExample.items.map (·.order)).Pairwise (· < ·) ∧
    flatMapExample.items.map (·.data) =
      (((ofStream ([0, 1, 2] : List Nat)).items.map
        (fun od => exMapper od.data)).map (List.map (·.data))).flatten ∧
    flatMapExample.parallelCount = 1 ∧ flatMapExample.parallel = false ∧
    flatMapExample.terminalCloseCount = 0 :=
  flatMap_renumbering exMapper (ofStream [0, 1, 2]) flatMapExample
    (by decide) (by decide) (by decide)

end GoStream
